import Mathlib

/-!
# Verification of the token-classification task loop

A shallow embedding of `src/tasks/token_classification.py` (and the parts of
`train.py` it relies on) from the word-substitution-detection repository.

Modelling conventions:
* A tensor of shape (batch, seq) is a `List (List _)`; `flatten` is `List.join`.
* Logits and probabilities are real numbers (`ℝ`), since `torch.sigmoid` is
  transcendental; token ids are `ℤ` and label / mask tensors are `ℚ`, which
  keeps every comparison the code performs on them decidable.
* The pretrained model is an external collaborator: it is a parameter
  `Model`, a function from (input ids, attention mask) to the squeezed
  logits tensor.
* The optimizer and scheduler are external collaborators; the loop records
  the batch indices at which `optimizer.step()` / `scheduler.step()` fire.
* Python's `ZeroDivisionError` and `AssertionError` are modelled with
  `Except String`.
-/

set_option autoImplicit false

namespace WordSubstitution

/-- torch.sigmoid: the logistic function `1 / (1 + exp (-x))`. -/
noncomputable def sigmoid (x : ℝ) : ℝ := 1 / (1 + Real.exp (-x))

/-- The thresholding step `(p > th).long()` applied elementwise: label `1`
when the probability is strictly greater than the threshold, else `0`. -/
noncomputable def thresholdGt (th p : ℝ) : ℕ := if th < p then 1 else 0

/-- Composition `torch.sigmoid(logits) > th` followed by `.long()`, elementwise. -/
noncomputable def predLabel (th x : ℝ) : ℕ := thresholdGt th (sigmoid x)

/-- Boolean-mask indexing `xs[mask]`: keep the entries of `xs` at positions
where the mask is `true` (as `torch.masked_select` / numpy boolean indexing;
the two lists are assumed to have the same length). -/
def maskSelect {α : Type} (m : List Bool) (xs : List α) : List α :=
  ((m.zip xs).filter (fun p => p.1)).map (fun p => p.2)

/-- Method `TokenClassificationTask.compute_correct`: sigmoid, threshold, flatten,
keep mask-true positions, and count exact matches between the thresholded
predictions and the labels.  Returns `(n_correct, preds, labels)`.
The mask is the float tensor passed by the callers; `mask.bool()` is
"entry ≠ 0". -/
noncomputable def compute_correct (logits : List (List ℝ)) (labels : List (List ℚ))
    (mask : List (List ℚ)) (th : ℝ := 1/2) : ℕ × List ℕ × List ℚ :=
  let preds0 := logits.map (List.map (predLabel th))
  let m := mask.flatten.map (fun v => decide (v ≠ 0))
  let preds := maskSelect m preds0.flatten
  let labs := maskSelect m labels.flatten
  let n_correct := (preds.zip labs).countP (fun pl => decide ((pl.1 : ℚ) = pl.2))
  (n_correct, preds, labs)

/-! ## Loss construction: get_loss_fn -/

/-- Configuration of the functor returned by `nn.BCEWithLogitsLoss(...)`. -/
structure BCEWithLogitsLoss where
  reduction : String
  pos_weight : Option ℝ

/-- Classmethod `TokenClassificationTask.get_loss_fn`: only the kind
"binary_cross_entropy" is implemented; every other kind raises
`NotImplementedError(f"loss {type} not yet implemented")`. -/
def get_loss_fn (type : String) (reduction : String := "none")
    (pos_weight : Option ℝ := none) : Except String BCEWithLogitsLoss :=
  if type = "binary_cross_entropy" then
    Except.ok { reduction := reduction, pos_weight := pos_weight }
  else
    Except.error ("loss " ++ type ++ " not yet implemented")

/-- Elementwise binary cross-entropy with logits (torch's formula for
`reduction="none"`): `-(pos_weight * y * log σ(x) + (1 - y) * log (1 - σ(x)))`;
an absent `pos_weight` is weight 1. -/
noncomputable def BCEWithLogitsLoss.applyElt (f : BCEWithLogitsLoss) (x y : ℝ) : ℝ :=
  -(f.pos_weight.getD 1 * y * Real.log (sigmoid x) + (1 - y) * Real.log (1 - sigmoid x))

/-! ## Batches, masks, and the external model -/

/-- One training/evaluation batch `(src_seq_t, label_t)`. -/
structure Batch where
  src_seq : List (List ℤ)
  label : List (List ℚ)

/-- The pretrained model, an external collaborator of the task loop:
`(input_ids, attention_mask) ↦ model(...).logits.squeeze(-1)`. -/
abbrev Model : Type := List (List ℤ) → List (List ℚ) → List (List ℝ)

/-- Attention mask `src_seq_t.ne(pad_token_id).float()`. -/
def attentionMask (pad : ℤ) (src : List (List ℤ)) : List (List ℚ) :=
  src.map (List.map (fun t => if t ≠ pad then 1 else 0))

/-- Label mask `(label_t != ignore_index).float()`. -/
def labelMask (ignore_index : ℚ) (labels : List (List ℚ)) : List (List ℚ) :=
  labels.map (List.map (fun l => if l ≠ ignore_index then 1 else 0))

/-- Cast a rational (batch, seq) tensor to a real one. -/
def castQ2 (x : List (List ℚ)) : List (List ℝ) :=
  x.map (List.map (fun q => ((q : ℚ) : ℝ)))

/-- Mean of a 1-D tensor, `xs.mean()`. -/
noncomputable def tmean (xs : List ℝ) : ℝ := xs.sum / xs.length

/-- The scalar loss of one batch, as both `train` and `eval` compute it:
elementwise `loss_fn(logits_t, label_t)`, multiplied by the label mask, then
`.mean(-1).mean(0)`. -/
noncomputable def batchLoss (f : BCEWithLogitsLoss) (logits : List (List ℝ))
    (labels lmask : List (List ℚ)) : ℝ :=
  let ew := List.zipWith (List.zipWith f.applyElt) logits (castQ2 labels)
  let masked := List.zipWith (List.zipWith (· * ·)) ew (castQ2 lmask)
  tmean (masked.map tmean)

/-! ## The task object and one training epoch -/

/-- The hyperparameters of `args` that the task loop reads. -/
structure Args where
  gradient_accumulation_steps : ℕ
  steps_per_epoch : ℕ

/-- State of a `TokenClassificationTask` instance.  The `global_step` field is
modelled from the spec: the `OmniTask` base class (whose file is not part of
the two sources) owns "the task's monotonically increasing global step
counter". -/
structure TokenClassificationTask where
  name : String
  pad_token_id : ℤ
  ignore_index : ℚ
  args : Args
  global_step : ℕ

/-- The running accumulators of one training epoch, plus the trace of batch
indices at which `optimizer.step()` / `scheduler.step()` fired (the optimizer
and scheduler themselves are external collaborators). -/
structure TrainState where
  total_loss : ℝ
  n_pred_total : ℚ
  n_pred_correct : ℕ
  steps : ℕ
  optStepIdxs : List ℕ
  schedStepIdxs : List ℕ

/-- All accumulators of the epoch start at zero. -/
noncomputable def initTrainState : TrainState :=
  { total_loss := 0, n_pred_total := 0, n_pred_correct := 0, steps := 0,
    optStepIdxs := [], schedStepIdxs := [] }

/-- The `for batch_idx, batch in enumerate(dataloader)` loop of
`TokenClassificationTask.train`: forward pass, masked loss `.mean(-1).mean(0)`,
scaling by `1/gradient_accumulation_steps` when accumulation is used, the
optimizer/scheduler step gated on `batch_idx % gradient_accumulation_steps == 0`,
metric accumulation, and the early break once
`steps / gradient_accumulation_steps == steps_per_epoch`. -/
noncomputable def trainLoop (args : Args) (modelF : Model) (lossFn : BCEWithLogitsLoss)
    (pad : ℤ) (ign : ℚ) : ℕ → TrainState → List Batch → TrainState
  | _, s, [] => s
  | batch_idx, s, b :: rest =>
    let att := attentionMask pad b.src_seq
    let lmask := labelMask ign b.label
    let logits := modelF b.src_seq att
    let loss0 := batchLoss lossFn logits b.label lmask
    let loss_t := if 1 < args.gradient_accumulation_steps
      then loss0 / (args.gradient_accumulation_steps : ℝ) else loss0
    let s' : TrainState :=
      { total_loss := s.total_loss + loss_t
        n_pred_total := s.n_pred_total + lmask.flatten.sum
        n_pred_correct := s.n_pred_correct + (compute_correct logits b.label lmask).1
        steps := s.steps + 1
        optStepIdxs := if batch_idx % args.gradient_accumulation_steps = 0
          then s.optStepIdxs ++ [batch_idx] else s.optStepIdxs
        schedStepIdxs := if batch_idx % args.gradient_accumulation_steps = 0
          then s.schedStepIdxs ++ [batch_idx] else s.schedStepIdxs }
    if (s'.steps : ℚ) / (args.gradient_accumulation_steps : ℚ) = (args.steps_per_epoch : ℚ)
      then s'
      else trainLoop args modelF lossFn pad ign (batch_idx + 1) s' rest

/-- What `TokenClassificationTask.train` hands back: the returned pair and the
new value of the persistent `global_step` counter (a mutation in the source). -/
structure TrainOutput where
  total_loss : ℝ
  accuracy : ℚ
  global_step : ℕ

/-- Method `TokenClassificationTask.train`.  After the loop,
`steps /= gradient_accumulation_steps` (Python float division, modelled in ℚ),
`total_loss = total_loss / steps` and `accuracy = n_pred_correct / n_pred_total`
— both raising `ZeroDivisionError` when the divisor is zero — and
`global_step += int(steps)` (truncation = floor for the nonnegative values
that occur). -/
noncomputable def TokenClassificationTask.train (task : TokenClassificationTask)
    (modelF : Model) (batches : List Batch)
    (loss_type : String := "binary_cross_entropy") (pos_weight : Option ℝ := none) :
    Except String TrainOutput := do
  let lossFn ← get_loss_fn loss_type "none" pos_weight
  let s := trainLoop task.args modelF lossFn task.pad_token_id task.ignore_index
    0 initTrainState batches
  let stepsQ : ℚ := (s.steps : ℚ) / (task.args.gradient_accumulation_steps : ℚ)
  if stepsQ = 0 then Except.error "ZeroDivisionError" else
  if s.n_pred_total = 0 then Except.error "ZeroDivisionError" else
  Except.ok
    { total_loss := s.total_loss / (stepsQ : ℝ)
      accuracy := (s.n_pred_correct : ℚ) / s.n_pred_total
      global_step := task.global_step + (⌊stepsQ⌋).toNat }

/-! ## One evaluation epoch -/

/-- Accumulators of `TokenClassificationTask.eval`: per-batch filtered
prediction/label vectors are appended to two Python lists. -/
structure EvalState where
  total_loss : ℝ
  steps : ℕ
  preds : List (List ℕ)
  labels : List (List ℚ)

/-- The batch loop of `TokenClassificationTask.eval`: forward pass, masked
loss (not backpropagated), `compute_correct`, and appending the filtered
prediction/label vectors of the batch. -/
noncomputable def evalLoop (modelF : Model) (lossFn : BCEWithLogitsLoss)
    (pad : ℤ) (ign : ℚ) : EvalState → List Batch → EvalState
  | s, [] => s
  | s, b :: rest =>
    let att := attentionMask pad b.src_seq
    let lmask := labelMask ign b.label
    let logits := modelF b.src_seq att
    let loss_t := batchLoss lossFn logits b.label lmask
    let r := compute_correct logits b.label lmask
    evalLoop modelF lossFn pad ign
      { total_loss := s.total_loss + loss_t
        steps := s.steps + 1
        preds := s.preds ++ [r.2.1]
        labels := s.labels ++ [r.2.2] } rest

/-- Modelled from the documented semantics of sklearn's `accuracy_score`
(an external collaborator): the fraction of positions where prediction and
label agree exactly. -/
def accuracy_score (y_true : List ℚ) (y_pred : List ℕ) : ℚ :=
  ((y_true.zip y_pred).countP (fun p => decide (p.1 = (p.2 : ℚ)))) / (y_true.length : ℚ)

/-- Per-class counts (true positives, predicted-as-c, truly-c) used by the
sklearn macro metrics. -/
def classCounts (y_true : List ℚ) (y_pred : List ℕ) (c : ℚ) : ℕ × ℕ × ℕ :=
  let pairs := y_true.zip (y_pred.map (fun n => (n : ℚ)))
  ((pairs.countP (fun p => decide (p.1 = c ∧ p.2 = c))),
   (pairs.countP (fun p => decide (p.2 = c))),
   (pairs.countP (fun p => decide (p.1 = c))))

/-- Modelled from the documented semantics of sklearn's
`precision_recall_fscore_support(..., average="macro")` (an external
collaborator): per-class precision `tp/(tp+fp)`, recall `tp/(tp+fn)` and
`F1 = 2PR/(P+R)` over the distinct labels occurring in `y_true ++ y_pred`,
averaged unweighted; a zero denominator yields 0 (sklearn's
`zero_division` default), which is also ℚ's division convention. -/
def prfsMacroAvg (y_true : List ℚ) (y_pred : List ℕ) : ℚ × ℚ × ℚ :=
  let classes := (y_true ++ y_pred.map (fun n => (n : ℚ))).dedup
  let precs := classes.map (fun c =>
    let k := classCounts y_true y_pred c; (k.1 : ℚ) / (k.2.1 : ℚ))
  let recs := classes.map (fun c =>
    let k := classCounts y_true y_pred c; (k.1 : ℚ) / (k.2.2 : ℚ))
  let fs := List.zipWith (fun p r => 2 * p * r / (p + r)) precs recs
  (precs.sum / (classes.length : ℚ), recs.sum / (classes.length : ℚ),
   fs.sum / (classes.length : ℚ))

/-- The fixed-key score bundle `eval` returns.  The precision field is named
`eval_prec` in the source; that spelling is a reserved token in Lean, so it
is written out in full here. -/
structure EvalScores where
  eval_loss : ℝ
  eval_acc : ℚ
  eval_precision : ℚ
  eval_rec : ℚ
  eval_f_score : ℚ

/-- Method `TokenClassificationTask.eval`: run the batch loop, divide the
loss by the number of batches (`ZeroDivisionError` when there is none, as in
the source where `total_loss /= steps` runs before `np.concatenate`),
concatenate all per-batch filtered vectors, and compute the macro
precision/recall/F1 and the accuracy over the full concatenation. -/
noncomputable def TokenClassificationTask.eval (task : TokenClassificationTask)
    (modelF : Model) (batches : List Batch)
    (loss_type : String := "binary_cross_entropy") (pos_weight : Option ℝ := none) :
    Except String EvalScores := do
  let lossFn ← get_loss_fn loss_type "none" pos_weight
  let s := evalLoop modelF lossFn task.pad_token_id task.ignore_index
    { total_loss := 0, steps := 0, preds := [], labels := [] } batches
  if s.steps = 0 then Except.error "ZeroDivisionError" else
  let labels := s.labels.flatten
  let preds := s.preds.flatten
  let prf := prfsMacroAvg labels preds
  Except.ok
    { eval_loss := s.total_loss / (s.steps : ℝ)
      eval_acc := accuracy_score labels preds
      eval_precision := prf.1
      eval_rec := prf.2.1
      eval_f_score := prf.2.2 }

/-! ## Inference -/

/-- One inference batch `(src_seq_t, token_mask)`. -/
structure InferBatch where
  src_seq : List (List ℤ)
  token_mask : List (List ℚ)

/-- The batch loop of the static `inference` method: forward pass, sigmoid,
the explicit `assert mask.shape == pred_t.shape` (an `AssertionError` that
propagates uncaught), then per sentence `torch.masked_select` of the valid
positions and thresholding `(p > th).long()`, appending one label list per
sentence. -/
noncomputable def inferenceLoop (modelF : Model) (pad : ℤ) (ign : ℚ) (th : ℝ)
    (preds : List (List ℕ)) : List InferBatch → Except String (List (List ℕ))
  | [] => Except.ok preds
  | b :: rest =>
    let att := attentionMask pad b.src_seq
    let logits := modelF b.src_seq att
    let pred_t := logits.map (List.map sigmoid)
    let mask := b.token_mask.map (List.map (fun v => decide (v ≠ ign)))
    if mask.map List.length = pred_t.map List.length then
      let out := (mask.zip pred_t).map
        (fun mp => (maskSelect mp.1 mp.2).map (thresholdGt th))
      inferenceLoop modelF pad ign th (preds ++ out) rest
    else Except.error "AssertionError"

/-- Static method `TokenClassificationTask.inference`. -/
noncomputable def inference (modelF : Model) (pad_token_id : ℤ) (ignore_index : ℚ)
    (batches : List InferBatch) (th : ℝ := 1/2) : Except String (List (List ℕ)) :=
  inferenceLoop modelF pad_token_id ignore_index th [] batches

/-- A concrete model for witnesses: logit 1 for token id 1, logit -1
otherwise; the attention mask is ignored. -/
def unitModel : Model :=
  fun ids _ => ids.map (List.map (fun t => if t = 1 then (1 : ℝ) else -1))

/-- The loss functor `train` builds for the default kind. -/
def noneLoss : BCEWithLogitsLoss := { reduction := "none", pos_weight := none }

/-- A concrete constant model for witnesses: one sentence, one zero logit. -/
def zeroModel : Model := fun _ _ => [[0]]

/-- A concrete batch: one sentence of one token with a valid label. -/
def b51 : Batch := { src_seq := [[5]], label := [[1]] }

/-- The filtered 0/1 prediction vector `compute_correct` returns for one batch
of `eval`. -/
noncomputable def batchPreds (modelF : Model) (pad : ℤ) (ign : ℚ) (b : Batch) : List ℕ :=
  (compute_correct (modelF b.src_seq (attentionMask pad b.src_seq)) b.label
    (labelMask ign b.label)).2.1

/-- The filtered label vector `compute_correct` returns for one batch of
`eval`. -/
noncomputable def batchLabels (modelF : Model) (pad : ℤ) (ign : ℚ) (b : Batch) : List ℚ :=
  (compute_correct (modelF b.src_seq (attentionMask pad b.src_seq)) b.label
    (labelMask ign b.label)).2.2

/-! ## Basic facts about the sigmoid and the threshold -/

theorem sigmoid_pos_denom (x : ℝ) : 0 < 1 + Real.exp (-x) := by
  have := Real.exp_pos (-x); linarith

theorem sigmoid_zero : sigmoid 0 = 1/2 := by
  simp [sigmoid, Real.exp_zero]
  norm_num

theorem half_lt_sigmoid_iff (x : ℝ) : 1/2 < sigmoid x ↔ 0 < x := by
  unfold sigmoid
  rw [lt_div_iff₀ (sigmoid_pos_denom x)]
  constructor
  · intro h
    have hexp : Real.exp (-x) < 1 := by linarith
    have := (Real.exp_lt_one_iff).mp hexp
    linarith
  · intro h
    have hexp : Real.exp (-x) < 1 := Real.exp_lt_one_iff.mpr (by linarith)
    linarith

theorem predLabel_pos {x : ℝ} (h : 0 < x) : predLabel (1/2) x = 1 := by
  have h2 := (half_lt_sigmoid_iff x).mpr h
  unfold predLabel thresholdGt
  exact if_pos h2

theorem predLabel_nonpos {x : ℝ} (h : x ≤ 0) : predLabel (1/2) x = 0 := by
  have h2 : ¬ (1/2 : ℝ) < sigmoid x := by
    intro hc; exact absurd ((half_lt_sigmoid_iff x).mp hc) (not_lt.mpr h)
  unfold predLabel thresholdGt
  exact if_neg h2

theorem predLabel_one : predLabel (1/2) 1 = 1 := predLabel_pos one_pos

theorem predLabel_neg_one : predLabel (1/2) (-1) = 0 := predLabel_nonpos (by norm_num)

theorem predLabel_zero : predLabel (1/2) 0 = 0 := predLabel_nonpos le_rfl

/-! ## maskSelect lemmas -/

@[simp] theorem maskSelect_nil_left {α : Type} (xs : List α) :
    maskSelect [] xs = [] := rfl

@[simp] theorem maskSelect_nil_right {α : Type} (m : List Bool) :
    maskSelect m ([] : List α) = [] := by
  cases m <;> rfl

@[simp] theorem maskSelect_cons_true {α : Type} (m : List Bool) (x : α) (xs : List α) :
    maskSelect (true :: m) (x :: xs) = x :: maskSelect m xs := by
  simp [maskSelect]

@[simp] theorem maskSelect_cons_false {α : Type} (m : List Bool) (x : α) (xs : List α) :
    maskSelect (false :: m) (x :: xs) = maskSelect m xs := by
  simp [maskSelect]

theorem maskSelect_length {α : Type} (m : List Bool) (xs : List α)
    (h : m.length = xs.length) :
    (maskSelect m xs).length = m.countP (fun b => b) := by
  induction m generalizing xs with
  | nil => simp
  | cons b m ih =>
    cases xs with
    | nil => simp at h
    | cons x xs =>
      simp only [List.length_cons, Nat.succ_inj] at h
      cases b
      · rw [maskSelect_cons_false, ih xs h, List.countP_cons]
        simp
      · rw [maskSelect_cons_true, List.countP_cons]
        simp [ih xs h]

/-! ## Helper lemmas for compute_correct -/

theorem maskSelect_zip_countP (th : ℝ) (mb : List Bool) :
    ∀ (l : List ℝ) (y : List ℚ), mb.length = l.length → mb.length = y.length →
      ((maskSelect mb (l.map (predLabel th))).zip (maskSelect mb y)).countP
        (fun pl => decide ((pl.1 : ℚ) = pl.2))
      = (mb.zip (l.zip y)).countP
          (fun t => t.1 && decide ((predLabel th t.2.1 : ℚ) = t.2.2)) := by
  induction mb with
  | nil => intro l y _ _; simp
  | cons v mb ih =>
    intro l y hl hy
    cases l with
    | nil => simp at hl
    | cons x l =>
      cases y with
      | nil => simp at hy
      | cons b y =>
        simp only [List.length_cons] at hl hy
        have hl' : mb.length = l.length := by omega
        have hy' : mb.length = y.length := by omega
        cases v
        · simp [ih l y hl' hy', List.countP_cons]
        · simp [ih l y hl' hy', List.countP_cons]

theorem countP_mask_agree (th : ℝ) (mb : List Bool) :
    ∀ (l l' : List ℝ) (y y' : List ℚ),
      mb.length = l.length → mb.length = y.length →
      mb.length = l'.length → mb.length = y'.length →
      (∀ i, mb.getD i false = true →
        l.getD i 0 = l'.getD i 0 ∧ y.getD i 0 = y'.getD i 0) →
      (mb.zip (l.zip y)).countP
          (fun t => t.1 && decide ((predLabel th t.2.1 : ℚ) = t.2.2))
        = (mb.zip (l'.zip y')).countP
          (fun t => t.1 && decide ((predLabel th t.2.1 : ℚ) = t.2.2)) := by
  induction mb with
  | nil => intro l l' y y' _ _ _ _ _; simp
  | cons v mb ih =>
    intro l l' y y' hl hy hl' hy' hagree
    cases l with
    | nil => simp at hl
    | cons x l =>
      cases y with
      | nil => simp at hy
      | cons b y =>
        cases l' with
        | nil => simp at hl'
        | cons x' l2 =>
          cases y' with
          | nil => simp at hy'
          | cons b' y2 =>
            simp only [List.length_cons] at hl hy hl' hy'
            have htail := ih l l2 y y2 (by omega) (by omega) (by omega) (by omega)
              (fun i hi => hagree (i + 1) (by simpa using hi))
            cases v
            · simp [List.countP_cons, htail]
            · obtain ⟨hx, hb⟩ := hagree 0 rfl
              simp only [List.getD_cons_zero] at hx hb
              simp [List.countP_cons, htail, hx, hb]

theorem getD_map_decide_ne (ign : ℚ) (xs : List ℚ) :
    ∀ i, ((xs.map (fun v => decide (v ≠ ign))).getD i false = true ↔ xs.getD i ign ≠ ign) := by
  induction xs with
  | nil => intro i; simp
  | cons x xs ih =>
    intro i
    cases i with
    | zero => simp
    | succ n => simpa using ih n

/-- C1: for same-shaped logits/labels/mask tensors and any threshold,
`compute_correct` returns the count of positions, among exactly the mask-true
ones, at which the thresholded sigmoid of the logit equals the label; hence
two inputs that agree on the mask and on all mask-true positions of logits
and labels produce the same count — changing masked-out entries never changes
it. -/
theorem compute_correct_only_masked (th : ℝ)
    (logits logits' : List (List ℝ)) (labels labels' mask : List (List ℚ))
    (h₁ : logits.map List.length = mask.map List.length)
    (h₂ : labels.map List.length = mask.map List.length)
    (h₁' : logits'.map List.length = mask.map List.length)
    (h₂' : labels'.map List.length = mask.map List.length)
    (hagree : ∀ i, mask.flatten.getD i 0 ≠ 0 →
      logits.flatten.getD i 0 = logits'.flatten.getD i 0 ∧
      labels.flatten.getD i 0 = labels'.flatten.getD i 0) :
    (compute_correct logits labels mask th).1
      = (((mask.flatten.map (fun v => decide (v ≠ 0))).zip
            (logits.flatten.zip labels.flatten)).countP
          (fun t => t.1 && decide ((predLabel th t.2.1 : ℚ) = t.2.2)))
    ∧ (compute_correct logits labels mask th).1
      = (compute_correct logits' labels' mask th).1 := by
  have hlen : ∀ (x : List (List ℝ)), x.map List.length = mask.map List.length →
      (mask.flatten.map (fun v => decide (v ≠ 0))).length = x.flatten.length := by
    intro x hx
    rw [List.length_map, List.length_flatten, List.length_flatten, hx]
  have hlenq : ∀ (x : List (List ℚ)), x.map List.length = mask.map List.length →
      (mask.flatten.map (fun v => decide (v ≠ 0))).length = x.flatten.length := by
    intro x hx
    rw [List.length_map, List.length_flatten, List.length_flatten, hx]
  have key : ∀ (lo : List (List ℝ)) (la : List (List ℚ)),
      lo.map List.length = mask.map List.length →
      la.map List.length = mask.map List.length →
      (compute_correct lo la mask th).1
        = (((mask.flatten.map (fun v => decide (v ≠ 0))).zip
              (lo.flatten.zip la.flatten)).countP
            (fun t => t.1 && decide ((predLabel th t.2.1 : ℚ) = t.2.2))) := by
    intro lo la hlo hla
    unfold compute_correct
    simp only [← List.map_flatten]
    exact maskSelect_zip_countP th (mask.flatten.map (fun v => decide (v ≠ 0)))
      lo.flatten la.flatten (hlen lo hlo) (hlenq la hla)
  refine ⟨key logits labels h₁ h₂, ?_⟩
  rw [key logits labels h₁ h₂, key logits' labels' h₁' h₂']
  exact countP_mask_agree th (mask.flatten.map (fun v => decide (v ≠ 0)))
    logits.flatten logits'.flatten labels.flatten labels'.flatten
    (hlen logits h₁) (hlenq labels h₂) (hlen logits' h₁') (hlenq labels' h₂')
    (fun i hi => hagree i ((getD_map_decide_ne 0 mask.flatten i).mp hi))

/-- Witness for C1 at a concrete input: with mask `[[1, 0]]`, changing the
masked-out logit `-1 ↦ 5` and label `0 ↦ 7` leaves the count unchanged. -/
theorem compute_correct_only_masked_witness :
    (compute_correct [[(1 : ℝ), -1]] [[1, 0]] [[1, 0]] (1/2)).1
      = (compute_correct [[(1 : ℝ), 5]] [[1, 7]] [[1, 0]] (1/2)).1 :=
  (compute_correct_only_masked (1/2) [[1, -1]] [[1, 5]] [[1, 0]] [[1, 7]] [[1, 0]]
    rfl rfl rfl rfl
    (fun i hi => by
      match i with
      | 0 => exact ⟨rfl, rfl⟩
      | 1 => simp at hi
      | (n + 2) => simp [List.getD] at hi)).2

/-! ## C10: strict thresholding -/

/-- C10: thresholding is strict in both `compute_correct` (whose elementwise
prediction is `predLabel`) and `inference` (whose elementwise prediction is
`thresholdGt` applied to the sigmoid probabilities): a probability exactly
equal to the threshold yields label 0 — with the default threshold 1/2 this
is every logit exactly 0, since `sigmoid 0 = 1/2` — and label 1 arises
exactly for probabilities strictly greater than the threshold. -/
theorem threshold_is_strict (th p x : ℝ) :
    thresholdGt th th = 0
    ∧ (p = th → thresholdGt th p = 0)
    ∧ (sigmoid x = th → predLabel th x = 0)
    ∧ (x = 0 → predLabel (1/2) x = 0)
    ∧ (thresholdGt th p = 1 ↔ th < p)
    ∧ (predLabel th x = 1 ↔ th < sigmoid x) := by
  have hb : ∀ q : ℝ, thresholdGt th q = 1 ↔ th < q := by
    intro q
    unfold thresholdGt
    by_cases h : th < q
    · simp [h]
    · simp [h]
  have h0 : thresholdGt th th = 0 := by
    unfold thresholdGt
    exact if_neg (lt_irrefl th)
  refine ⟨h0, ?_, ?_, ?_, hb p, hb (sigmoid x)⟩
  · intro hp; rw [hp]; exact h0
  · intro hs; unfold predLabel; rw [hs]; exact h0
  · intro hx; rw [hx]; exact predLabel_zero

/-- Witness for C10 at the default threshold: the logit 0 has sigmoid
probability exactly 1/2 and is labelled 0, and a probability strictly above
the threshold is labelled 1. -/
theorem threshold_is_strict_witness :
    predLabel (1/2) 0 = 0 ∧ thresholdGt (1/2) 1 = 1 :=
  ⟨(threshold_is_strict (1/2) 1 0).2.2.2.1 rfl,
   (threshold_is_strict (1/2) 1 0).2.2.2.2.1.mpr (by norm_num)⟩

/-! ## C6: the loss-kind enumeration is closed and fails fast -/

/-- C6: every loss kind other than "binary_cross_entropy" makes `get_loss_fn`
fail with the "not yet implemented" error, and the failure is at
loss-construction time: `train` and `eval` called with such a kind return
that very error for every dataloader alike, before any batch is processed;
the kind "binary_cross_entropy" yields the configured functor without
error. -/
theorem get_loss_fn_closed (t reduction : String) (pw : Option ℝ)
    (task : TokenClassificationTask) (modelF : Model) (batches : List Batch)
    (h : t ≠ "binary_cross_entropy") :
    get_loss_fn t reduction pw
        = Except.error ("loss " ++ t ++ " not yet implemented")
    ∧ get_loss_fn "binary_cross_entropy" reduction pw
        = Except.ok { reduction := reduction, pos_weight := pw }
    ∧ task.train modelF batches t pw
        = Except.error ("loss " ++ t ++ " not yet implemented")
    ∧ task.eval modelF batches t pw
        = Except.error ("loss " ++ t ++ " not yet implemented") := by
  have herr : get_loss_fn t "none" pw
      = Except.error ("loss " ++ t ++ " not yet implemented") := by
    unfold get_loss_fn
    exact if_neg h
  refine ⟨?_, ?_, ?_, ?_⟩
  · unfold get_loss_fn
    exact if_neg h
  · unfold get_loss_fn
    exact if_pos rfl
  · unfold TokenClassificationTask.train
    rw [herr]
    rfl
  · unfold TokenClassificationTask.eval
    rw [herr]
    rfl

/-- Witness for C6 at the concrete unsupported kind "mse". -/
theorem get_loss_fn_closed_witness :
    get_loss_fn "mse" "none" none = Except.error "loss mse not yet implemented"
    ∧ get_loss_fn "binary_cross_entropy" "none" none
        = Except.ok { reduction := "none", pos_weight := none } :=
  ⟨(get_loss_fn_closed "mse" "none" none
      ⟨"t", 0, -100, ⟨1, 1⟩, 0⟩ (fun _ _ => []) [] (by decide)).1,
   (get_loss_fn_closed "mse" "none" none
      ⟨"t", 0, -100, ⟨1, 1⟩, 0⟩ (fun _ _ => []) [] (by decide)).2.1⟩

/-! ## Helper lemmas for inference -/

theorem map_length_map_map {α β : Type} (f : α → β) (x : List (List α)) :
    (x.map (List.map f)).map List.length = x.map List.length := by
  induction x with
  | nil => rfl
  | cons row rows ih => simp [ih]

theorem mem_map_thresholdGt (th : ℝ) (l : List ℝ) :
    ∀ z ∈ l.map (thresholdGt th), z = 0 ∨ z = 1 := by
  intro z hz
  obtain ⟨q, _, rfl⟩ := List.mem_map.mp hz
  unfold thresholdGt
  by_cases h : th < q
  · right; rw [if_pos h]
  · left; rw [if_neg h]

theorem forall₂_masked_out (ign : ℚ) (th : ℝ) :
    ∀ (tm : List (List ℚ)) (lg : List (List ℝ)),
      tm.map List.length = lg.map List.length →
      List.Forall₂ (fun (row : List ℚ) (o : List ℕ) =>
          o.length = row.countP (fun v => decide (v ≠ ign)) ∧ ∀ z ∈ o, z = 0 ∨ z = 1)
        tm
        (((tm.map (List.map (fun v => decide (v ≠ ign)))).zip
            (lg.map (List.map sigmoid))).map
          (fun mp => (maskSelect mp.1 mp.2).map (thresholdGt th))) := by
  intro tm
  induction tm with
  | nil => intro lg _; simp
  | cons row rows ih =>
    intro lg hlen
    cases lg with
    | nil => simp at hlen
    | cons prow prows =>
      simp only [List.map_cons, List.cons.injEq] at hlen
      obtain ⟨hrow, hrows⟩ := hlen
      simp only [List.map_cons, List.zip_cons_cons]
      refine List.Forall₂.cons ⟨?_, mem_map_thresholdGt th _⟩ (ih prows hrows)
      rw [List.length_map,
        maskSelect_length _ _ (by rw [List.length_map, List.length_map, hrow]),
        List.countP_map]
      rfl

/-- The success run of the inference loop: when every batch passes the shape
assertion, the loop extends the accumulator with one label list per sentence,
in traversal order, whose lengths are the valid-position counts of the
sentences' mask rows and whose entries are 0/1. -/
theorem inferenceLoop_ok_spec (modelF : Model) (pad : ℤ) (ign : ℚ) (th : ℝ) :
    ∀ (batches : List InferBatch) (acc : List (List ℕ)),
      (∀ b ∈ batches, b.token_mask.map List.length
        = (modelF b.src_seq (attentionMask pad b.src_seq)).map List.length) →
      ∃ out, inferenceLoop modelF pad ign th acc batches = Except.ok (acc ++ out)
        ∧ List.Forall₂ (fun (row : List ℚ) (o : List ℕ) =>
            o.length = row.countP (fun v => decide (v ≠ ign))
            ∧ ∀ z ∈ o, z = 0 ∨ z = 1)
          ((batches.map (fun b => b.token_mask)).flatten) out := by
  intro batches
  induction batches with
  | nil =>
    intro acc _
    exact ⟨[], by simp [inferenceLoop], by simp⟩
  | cons b rest ih =>
    intro acc hshape
    have hb := hshape b (List.mem_cons_self b rest)
    have hcond : (b.token_mask.map (List.map (fun v => decide (v ≠ ign)))).map List.length
        = ((modelF b.src_seq (attentionMask pad b.src_seq)).map (List.map sigmoid)).map
            List.length := by
      rw [map_length_map_map, map_length_map_map]
      exact hb
    obtain ⟨out, hout, hrel⟩ := ih
      (acc ++ ((b.token_mask.map (List.map (fun v => decide (v ≠ ign)))).zip
          ((modelF b.src_seq (attentionMask pad b.src_seq)).map (List.map sigmoid))).map
        (fun mp => (maskSelect mp.1 mp.2).map (thresholdGt th)))
      (fun b' hb' => hshape b' (List.mem_cons_of_mem b hb'))
    refine ⟨(((b.token_mask.map (List.map (fun v => decide (v ≠ ign)))).zip
          ((modelF b.src_seq (attentionMask pad b.src_seq)).map (List.map sigmoid))).map
        (fun mp => (maskSelect mp.1 mp.2).map (thresholdGt th))) ++ out, ?_, ?_⟩
    · show inferenceLoop modelF pad ign th acc (b :: rest) = _
      unfold inferenceLoop
      rw [if_pos hcond, hout, List.append_assoc]
    · rw [List.map_cons, List.flatten_cons]
      exact List.rel_append (forall₂_masked_out ign th b.token_mask _ hb) hrel

/-- The failing run of the inference loop: as soon as some batch fails the
shape assertion, the whole loop yields the assertion error. -/
theorem inferenceLoop_error_spec (modelF : Model) (pad : ℤ) (ign : ℚ) (th : ℝ) :
    ∀ (batches : List InferBatch) (acc : List (List ℕ)),
      (∃ b ∈ batches, b.token_mask.map List.length
        ≠ (modelF b.src_seq (attentionMask pad b.src_seq)).map List.length) →
      inferenceLoop modelF pad ign th acc batches = Except.error "AssertionError" := by
  intro batches
  induction batches with
  | nil => intro acc h; obtain ⟨b, hb, _⟩ := h; exact absurd hb (List.not_mem_nil b)
  | cons b rest ih =>
    intro acc h
    by_cases hhead : b.token_mask.map List.length
        = (modelF b.src_seq (attentionMask pad b.src_seq)).map List.length
    · have hcond : (b.token_mask.map (List.map (fun v => decide (v ≠ ign)))).map List.length
          = ((modelF b.src_seq (attentionMask pad b.src_seq)).map (List.map sigmoid)).map
              List.length := by
        rw [map_length_map_map, map_length_map_map]; exact hhead
      obtain ⟨b', hb', hne⟩ := h
      rcases List.mem_cons.mp hb' with rfl | htail
      · exact absurd hhead hne
      · unfold inferenceLoop
        rw [if_pos hcond]
        exact ih _ ⟨b', htail, hne⟩
    · have hcond : ¬ ((b.token_mask.map (List.map (fun v => decide (v ≠ ign)))).map List.length
          = ((modelF b.src_seq (attentionMask pad b.src_seq)).map (List.map sigmoid)).map
              List.length) := by
        rw [map_length_map_map, map_length_map_map]; exact hhead
      unfold inferenceLoop
      rw [if_neg hcond]

/-- C7: when every batch passes the shape assertion, `inference` emits one
label list per input sentence — as many lists as there are sentences across
the whole traversal, paired in traversal order with the sentences' mask rows —
and each sentence's list has length equal to the number of valid
(non-ignore-index) positions of that sentence's token mask, with all entries
0 or 1. -/
theorem inference_output_shape (modelF : Model) (pad : ℤ) (ign : ℚ) (th : ℝ)
    (batches : List InferBatch)
    (hshape : ∀ b ∈ batches, b.token_mask.map List.length
      = (modelF b.src_seq (attentionMask pad b.src_seq)).map List.length) :
    ∃ out, inference modelF pad ign batches th = Except.ok out
      ∧ out.length = ((batches.map (fun b => b.token_mask)).flatten).length
      ∧ List.Forall₂ (fun (row : List ℚ) (o : List ℕ) =>
          o.length = row.countP (fun v => decide (v ≠ ign))
          ∧ ∀ z ∈ o, z = 0 ∨ z = 1)
        ((batches.map (fun b => b.token_mask)).flatten) out := by
  obtain ⟨out, hout, hrel⟩ := inferenceLoop_ok_spec modelF pad ign th batches [] hshape
  exact ⟨out, by simpa [inference] using hout, hrel.length_eq.symm, hrel⟩

/-- Witness for C7: one batch of one sentence whose mask has exactly one
valid position. -/
theorem inference_output_shape_witness :
    ∃ out, inference unitModel 0 (-100) [⟨[[1, 2]], [[3, -100]]⟩] (1/2) = Except.ok out
      ∧ out.length = (([(⟨[[1, 2]], [[3, -100]]⟩ : InferBatch)].map
          (fun b => b.token_mask)).flatten).length
      ∧ List.Forall₂ (fun (row : List ℚ) (o : List ℕ) =>
          o.length = row.countP (fun v => decide (v ≠ (-100 : ℚ)))
          ∧ ∀ z ∈ o, z = 0 ∨ z = 1)
        (([(⟨[[1, 2]], [[3, -100]]⟩ : InferBatch)].map (fun b => b.token_mask)).flatten)
        out :=
  inference_output_shape unitModel 0 (-100) (1/2) [⟨[[1, 2]], [[3, -100]]⟩]
    (fun b hb => by
      rcases List.mem_singleton.mp hb with rfl
      rfl)

/-- C8: a batch whose token-mask shape differs from the shape of the squeezed
sigmoid output makes `inference` fail through the explicit assertion, and the
error propagates uncaught to the caller; when every batch's two shapes are
equal the assertion branch is unreachable and the per-sentence selection
proceeds, producing a successful result. -/
theorem inference_shape_assertion (modelF : Model) (pad : ℤ) (ign : ℚ) (th : ℝ)
    (batches : List InferBatch) :
    ((∃ b ∈ batches, b.token_mask.map List.length
        ≠ (modelF b.src_seq (attentionMask pad b.src_seq)).map List.length) →
      inference modelF pad ign batches th = Except.error "AssertionError")
    ∧ ((∀ b ∈ batches, b.token_mask.map List.length
        = (modelF b.src_seq (attentionMask pad b.src_seq)).map List.length) →
      ∃ out, inference modelF pad ign batches th = Except.ok out) := by
  constructor
  · intro h
    exact inferenceLoop_error_spec modelF pad ign th batches [] h
  · intro h
    obtain ⟨out, hout, _⟩ := inferenceLoop_ok_spec modelF pad ign th batches [] h
    exact ⟨out, by simpa [inference] using hout⟩

/-- Witness for C8: a one-sentence batch whose mask row is shorter than the
logits row trips the assertion, and a well-shaped batch succeeds. -/
theorem inference_shape_assertion_witness :
    inference unitModel 0 (-100) [⟨[[1, 2]], [[3]]⟩] (1/2) = Except.error "AssertionError"
    ∧ ∃ out, inference unitModel 0 (-100) [⟨[[1, 2]], [[3, 4]]⟩] (1/2) = Except.ok out :=
  ⟨(inference_shape_assertion unitModel 0 (-100) (1/2) [⟨[[1, 2]], [[3]]⟩]).1
      ⟨⟨[[1, 2]], [[3]]⟩, List.mem_singleton_self _, by intro hc; simp [unitModel] at hc⟩,
   (inference_shape_assertion unitModel 0 (-100) (1/2) [⟨[[1, 2]], [[3, 4]]⟩]).2
      (fun b hb => by rcases List.mem_singleton.mp hb with rfl; rfl)⟩

/-! ## Helper lemmas for the training loop -/

theorem initTrainState_steps : initTrainState.steps = 0 := rfl

theorem initTrainState_optStepIdxs : initTrainState.optStepIdxs = [] := rfl

theorem initTrainState_schedStepIdxs : initTrainState.schedStepIdxs = [] := rfl

/-- Characterization of one run of `trainLoop`: it processes some `k ≤ |bs|`
batches (at least one when the dataloader is nonempty), increments `steps` by
`k`, and appends to the optimizer/scheduler traces exactly the processed batch
indices divisible by `gradient_accumulation_steps`. -/
theorem trainLoop_run (args : Args) (modelF : Model) (lossFn : BCEWithLogitsLoss)
    (pad : ℤ) (ign : ℚ) :
    ∀ (bs : List Batch) (idx : ℕ) (s : TrainState), ∃ k,
      k ≤ bs.length ∧ (bs ≠ [] → 1 ≤ k)
      ∧ (trainLoop args modelF lossFn pad ign idx s bs).steps = s.steps + k
      ∧ (trainLoop args modelF lossFn pad ign idx s bs).optStepIdxs
          = s.optStepIdxs ++ (List.range' idx k).filter
              (fun i => i % args.gradient_accumulation_steps = 0)
      ∧ (trainLoop args modelF lossFn pad ign idx s bs).schedStepIdxs
          = s.schedStepIdxs ++ (List.range' idx k).filter
              (fun i => i % args.gradient_accumulation_steps = 0) := by
  intro bs
  induction bs with
  | nil =>
    intro idx s
    exact ⟨0, by simp, by simp, by simp [trainLoop], by simp [trainLoop],
      by simp [trainLoop]⟩
  | cons b rest ih =>
    intro idx s
    simp only [trainLoop]
    split
    · refine ⟨1, by simp, fun _ => le_rfl, rfl, ?_, ?_⟩
      · by_cases h : idx % args.gradient_accumulation_steps = 0 <;>
          simp [h, List.range'_one, List.filter_cons]
      · by_cases h : idx % args.gradient_accumulation_steps = 0 <;>
          simp [h, List.range'_one, List.filter_cons]
    · obtain ⟨k, hk, _, hsteps, hopt, hsch⟩ := ih (idx + 1) _
      refine ⟨k + 1, by simpa using Nat.succ_le_succ hk, fun _ => by omega, ?_, ?_, ?_⟩
      · rw [hsteps]
        show s.steps + 1 + k = s.steps + (k + 1)
        omega
      · rw [hopt, List.range'_succ, List.filter_cons]
        by_cases h : idx % args.gradient_accumulation_steps = 0 <;>
          simp [h]
      · rw [hsch, List.range'_succ, List.filter_cons]
        by_cases h : idx % args.gradient_accumulation_steps = 0 <;>
          simp [h]

/-- With `gradient_accumulation_steps = 1` and enough batches, the loop stops
exactly when `steps` reaches `steps_per_epoch`. -/
theorem trainLoop_gas1_steps (args : Args) (modelF : Model) (lossFn : BCEWithLogitsLoss)
    (pad : ℤ) (ign : ℚ) (hgas : args.gradient_accumulation_steps = 1) :
    ∀ (bs : List Batch) (idx : ℕ) (s : TrainState),
      s.steps < args.steps_per_epoch → args.steps_per_epoch ≤ s.steps + bs.length →
      (trainLoop args modelF lossFn pad ign idx s bs).steps = args.steps_per_epoch := by
  intro bs
  induction bs with
  | nil =>
    intro idx s hlt hle
    simp only [List.length_nil, Nat.add_zero] at hle
    omega
  | cons b rest ih =>
    intro idx s hlt hle
    simp only [trainLoop, hgas, Nat.cast_one, div_one, Nat.cast_inj]
    split
    · next h => exact h
    · next h =>
      refine ih (idx + 1) _ ?_ ?_
      · show s.steps + 1 < args.steps_per_epoch
        have : ¬ (s.steps + 1 = args.steps_per_epoch) := h
        omega
      · show args.steps_per_epoch ≤ s.steps + 1 + rest.length
        simp only [List.length_cons] at hle
        omega

/-- All-ignored labels contribute a zero label-mask sum. -/
theorem labelMask_all_ignored_sum (ign : ℚ) (labels : List (List ℚ))
    (h : ∀ row ∈ labels, ∀ l ∈ row, l = ign) :
    (labelMask ign labels).flatten.sum = 0 := by
  apply List.sum_eq_zero
  intro x hx
  obtain ⟨row', hrow', hxrow'⟩ := List.mem_flatten.mp hx
  obtain ⟨row, hrow, rfl⟩ := List.mem_map.mp hrow'
  obtain ⟨l, hl, rfl⟩ := List.mem_map.mp hxrow'
  rw [h row hrow l hl]
  simp

/-- When every label of every batch is the ignore index, the loop never
increases the valid-label total. -/
theorem trainLoop_all_ignored (args : Args) (modelF : Model) (lossFn : BCEWithLogitsLoss)
    (pad : ℤ) (ign : ℚ) :
    ∀ (bs : List Batch) (idx : ℕ) (s : TrainState),
      (∀ b ∈ bs, ∀ row ∈ b.label, ∀ l ∈ row, l = ign) →
      (trainLoop args modelF lossFn pad ign idx s bs).n_pred_total = s.n_pred_total := by
  intro bs
  induction bs with
  | nil => intro idx s _; simp [trainLoop]
  | cons b rest ih =>
    intro idx s hign
    have hsum := labelMask_all_ignored_sum ign b.label (hign b (List.mem_cons_self b rest))
    simp only [trainLoop]
    split
    · show s.n_pred_total + (labelMask ign b.label).flatten.sum = s.n_pred_total
      rw [hsum, add_zero]
    · rw [ih (idx + 1) _ (fun b' hb' => hign b' (List.mem_cons_of_mem b hb'))]
      show s.n_pred_total + (labelMask ign b.label).flatten.sum = s.n_pred_total
      rw [hsum, add_zero]

/-- Unfolding of `TokenClassificationTask.train` at the supported loss kind. -/
theorem train_unfold (task : TokenClassificationTask) (modelF : Model)
    (pw : Option ℝ) (batches : List Batch) :
    task.train modelF batches "binary_cross_entropy" pw =
      (if ((trainLoop task.args modelF { reduction := "none", pos_weight := pw }
            task.pad_token_id task.ignore_index 0 initTrainState batches).steps : ℚ)
          / (task.args.gradient_accumulation_steps : ℚ) = 0 then
        Except.error "ZeroDivisionError"
      else if (trainLoop task.args modelF { reduction := "none", pos_weight := pw }
            task.pad_token_id task.ignore_index 0 initTrainState batches).n_pred_total = 0 then
        Except.error "ZeroDivisionError"
      else
        Except.ok
          { total_loss := (trainLoop task.args modelF { reduction := "none", pos_weight := pw }
                task.pad_token_id task.ignore_index 0 initTrainState batches).total_loss
              / ((((trainLoop task.args modelF { reduction := "none", pos_weight := pw }
                  task.pad_token_id task.ignore_index 0 initTrainState batches).steps : ℚ)
                / (task.args.gradient_accumulation_steps : ℚ) : ℚ) : ℝ)
            accuracy := ((trainLoop task.args modelF { reduction := "none", pos_weight := pw }
                task.pad_token_id task.ignore_index 0 initTrainState batches).n_pred_correct : ℚ)
              / (trainLoop task.args modelF { reduction := "none", pos_weight := pw }
                task.pad_token_id task.ignore_index 0 initTrainState batches).n_pred_total
            global_step := task.global_step
              + (⌊(((trainLoop task.args modelF { reduction := "none", pos_weight := pw }
                  task.pad_token_id task.ignore_index 0 initTrainState batches).steps : ℚ)
                / (task.args.gradient_accumulation_steps : ℚ))⌋).toNat }) := by
  unfold TokenClassificationTask.train get_loss_fn
  rw [if_pos rfl]
  rfl

/-- Floor of a rational quotient of naturals is natural division. -/
theorem floor_nat_div (m n : ℕ) : (⌊((m : ℚ)) / (n : ℚ)⌋).toNat = m / n := by
  rw [Int.floor_toNat, Nat.floor_div_nat, Nat.floor_natCast]

/-- The number of multiples of `g` below `n` is the rounded-up quotient. -/
theorem length_filter_mod_range (g : ℕ) (hg : 0 < g) :
    ∀ n, ((List.range n).filter (fun i => i % g = 0)).length = (n + g - 1) / g := by
  intro n
  induction n with
  | zero =>
    have h0 : (0 + g - 1) / g = 0 := Nat.div_eq_of_lt (by omega)
    simpa using h0.symm
  | succ n ihn =>
    rw [List.range_succ, List.filter_append, List.length_append, ihn]
    by_cases h : n % g = 0
    · obtain ⟨q, rfl⟩ := Nat.dvd_iff_mod_eq_zero.mpr h
      have h1 : (g * q + g - 1) / g = q := by
        have he : g * q + g - 1 = g * q + (g - 1) := by omega
        rw [he, Nat.mul_add_div hg, Nat.div_eq_of_lt (by omega), Nat.add_zero]
      have h2 : (g * q + g) / g = q + 1 := by
        have he : g * q + g = g * (q + 1) := by ring
        rw [he, Nat.mul_div_cancel_left _ hg]
      simp [h, h1, h2]
    · have hdvd : ¬ g ∣ n + g := by
        intro hc
        exact h (Nat.dvd_iff_mod_eq_zero.mp (Nat.dvd_add_self_right.mp hc))
      have he : n + 1 + g - 1 = (n + g - 1) + 1 := by omega
      have he2 : (n + g - 1) + 1 = n + g := by omega
      rw [he, Nat.succ_div, if_neg (by rwa [he2]), List.filter_cons, if_neg (by simpa using h)]
      simp

/-! ## C3: optimizer/scheduler step gating -/

/-- C3: in every training epoch the optimizer and the scheduler are stepped
exactly at the batches whose raw zero-based index is divisible by
`gradient_accumulation_steps`, and in particular the first batch (index 0) of
a nonempty epoch always triggers both steps.  (The hypothesis
`0 < gradient_accumulation_steps` reflects that Python's `%` raises on a zero
modulus, and the driver divides by this value before `train` ever runs.) -/
theorem train_step_gating (args : Args) (modelF : Model) (lossFn : BCEWithLogitsLoss)
    (pad : ℤ) (ign : ℚ) (batches : List Batch) (res : TrainState)
    (hgas : 0 < args.gradient_accumulation_steps)
    (hres : res = trainLoop args modelF lossFn pad ign 0 initTrainState batches) :
    res.optStepIdxs = (List.range res.steps).filter
        (fun i => i % args.gradient_accumulation_steps = 0)
    ∧ res.schedStepIdxs = res.optStepIdxs
    ∧ (batches ≠ [] → 0 ∈ res.optStepIdxs ∧ 0 ∈ res.schedStepIdxs) := by
  subst hres
  obtain ⟨k, _, hk1, hsteps, hopt, hsch⟩ :=
    trainLoop_run args modelF lossFn pad ign batches 0 initTrainState
  simp only [initTrainState_steps, initTrainState_optStepIdxs,
    initTrainState_schedStepIdxs, Nat.zero_add, List.nil_append] at hsteps hopt hsch
  have hopt' : (trainLoop args modelF lossFn pad ign 0 initTrainState batches).optStepIdxs
      = (List.range k).filter (fun i => i % args.gradient_accumulation_steps = 0) := by
    rw [hopt, List.range_eq_range']
  refine ⟨by rw [hopt', hsteps], by rw [hopt', hsch, List.range_eq_range'], ?_⟩
  intro hne
  have hk := hk1 hne
  have hmem : 0 ∈ (List.range k).filter
      (fun i => i % args.gradient_accumulation_steps = 0) :=
    List.mem_filter.mpr ⟨List.mem_range.mpr (by omega), by simp⟩
  exact ⟨by rw [hopt']; exact hmem,
    by rw [hsch, ← List.range_eq_range']; exact hmem⟩

/-- Witness for C3: three batches with accumulation 2 — batch 0 steps. -/
theorem train_step_gating_witness :
    (trainLoop ⟨2, 100⟩ zeroModel noneLoss 0 (-100) 0 initTrainState [b51, b51, b51]).optStepIdxs
      = (List.range (trainLoop ⟨2, 100⟩ zeroModel noneLoss 0 (-100) 0 initTrainState
          [b51, b51, b51]).steps).filter (fun i => i % (2 : ℕ) = 0)
    ∧ 0 ∈ (trainLoop ⟨2, 100⟩ zeroModel noneLoss 0 (-100) 0 initTrainState
        [b51, b51, b51]).optStepIdxs :=
  ⟨(train_step_gating ⟨2, 100⟩ zeroModel noneLoss 0 (-100) [b51, b51, b51] _
      (by decide) rfl).1,
   ((train_step_gating ⟨2, 100⟩ zeroModel noneLoss 0 (-100) [b51, b51, b51] _
      (by decide) rfl).2.2 (List.cons_ne_nil _ _)).1⟩

/-! ## C5: the per-epoch batch budget -/

/-- C5 (amended): with `gradient_accumulation_steps = 1` and a positive
`steps_per_epoch = N`, a training epoch over a dataloader with at least `N`
batches processes exactly `N` batches, whatever the dataloader's length.
The original claim with `N = 0` is refuted by `train_early_stop_cex`: the
break condition is tested only after a batch has been processed. -/
theorem train_early_stop (args : Args) (modelF : Model) (lossFn : BCEWithLogitsLoss)
    (pad : ℤ) (ign : ℚ) (batches : List Batch)
    (hgas : args.gradient_accumulation_steps = 1)
    (hN : 1 ≤ args.steps_per_epoch)
    (hlen : args.steps_per_epoch ≤ batches.length) :
    (trainLoop args modelF lossFn pad ign 0 initTrainState batches).steps
      = args.steps_per_epoch :=
  trainLoop_gas1_steps args modelF lossFn pad ign hgas batches 0 initTrainState
    (by simpa [initTrainState] using hN) (by simpa [initTrainState] using hlen)

/-- Counterexample to C5 as stated: with `steps_per_epoch = 0` and a one-batch
dataloader (which has at least 0 batches), the loop processes 1 batch, not
0 — the break test `steps / gas == steps_per_epoch` only runs after a batch
has been consumed. -/
theorem train_early_stop_cex :
    (trainLoop ⟨1, 0⟩ zeroModel noneLoss 0 (-100) 0 initTrainState [b51]).steps
      ≠ (Args.mk 1 0).steps_per_epoch := by
  norm_num [trainLoop, initTrainState, b51, zeroModel, noneLoss]

/-- Witness for C5: budget 1 met by a single-batch dataloader. -/
theorem train_early_stop_witness :
    (trainLoop ⟨1, 1⟩ zeroModel noneLoss 0 (-100) 0 initTrainState [b51]).steps = 1 :=
  train_early_stop ⟨1, 1⟩ zeroModel noneLoss 0 (-100) [b51] rfl
    (by decide) (by decide)

/-! ## C9: empty epochs and epochs with no valid label -/

/-- C9: an empty dataloader leaves the step count at zero and `train` fails
with the division-by-zero error instead of returning; likewise a nonempty
epoch in which every label equals the ignore index fails at the accuracy
division because the valid-label total is zero.  Non-emptiness of both is an
unstated precondition of `train`. -/
theorem train_zero_division (task : TokenClassificationTask) (modelF : Model)
    (pw : Option ℝ)
    (hgas : 0 < task.args.gradient_accumulation_steps) :
    task.train modelF [] "binary_cross_entropy" pw = Except.error "ZeroDivisionError"
    ∧ (∀ batches, batches ≠ [] →
        (∀ b ∈ batches, ∀ row ∈ b.label, ∀ l ∈ row, l = task.ignore_index) →
        task.train modelF batches "binary_cross_entropy" pw
          = Except.error "ZeroDivisionError") := by
  constructor
  · rw [train_unfold]
    rw [if_pos ?_]
    show ((trainLoop task.args modelF { reduction := "none", pos_weight := pw }
        task.pad_token_id task.ignore_index 0 initTrainState []).steps : ℚ)
      / (task.args.gradient_accumulation_steps : ℚ) = 0
    show ((initTrainState.steps : ℚ))
      / (task.args.gradient_accumulation_steps : ℚ) = 0
    simp [initTrainState]
  · intro batches hne hign
    rw [train_unfold]
    obtain ⟨k, _, hk1, hsteps, _, _⟩ :=
      trainLoop_run task.args modelF { reduction := "none", pos_weight := pw }
        task.pad_token_id task.ignore_index batches 0 initTrainState
    have hk := hk1 hne
    have hsteps' : (trainLoop task.args modelF { reduction := "none", pos_weight := pw }
        task.pad_token_id task.ignore_index 0 initTrainState batches).steps = k := by
      simpa [initTrainState] using hsteps
    have hnz : ¬ (((trainLoop task.args modelF { reduction := "none", pos_weight := pw }
        task.pad_token_id task.ignore_index 0 initTrainState batches).steps : ℚ)
          / (task.args.gradient_accumulation_steps : ℚ) = 0) := by
      rw [hsteps']
      exact div_ne_zero (Nat.cast_ne_zero.mpr (by omega))
        (Nat.cast_ne_zero.mpr (by omega))
    rw [if_neg hnz]
    have hzero : (trainLoop task.args modelF { reduction := "none", pos_weight := pw }
        task.pad_token_id task.ignore_index 0 initTrainState batches).n_pred_total = 0 := by
      rw [trainLoop_all_ignored task.args modelF { reduction := "none", pos_weight := pw }
        task.pad_token_id task.ignore_index batches 0 initTrainState hign]
      rfl
    rw [if_pos hzero]

/-- Witness for C9: the empty dataloader, and a one-batch dataloader whose
only label is the ignore index -100. -/
theorem train_zero_division_witness :
    TokenClassificationTask.train ⟨"t", 0, -100, ⟨1, 5⟩, 0⟩ zeroModel []
        "binary_cross_entropy" none = Except.error "ZeroDivisionError"
    ∧ TokenClassificationTask.train ⟨"t", 0, -100, ⟨1, 5⟩, 0⟩ zeroModel
        [{ src_seq := [[5]], label := [[-100]] }]
        "binary_cross_entropy" none = Except.error "ZeroDivisionError" :=
  ⟨(train_zero_division ⟨"t", 0, -100, ⟨1, 5⟩, 0⟩ zeroModel none (by decide)).1,
   (train_zero_division ⟨"t", 0, -100, ⟨1, 5⟩, 0⟩ zeroModel none (by decide)).2
      [{ src_seq := [[5]], label := [[-100]] }] (List.cons_ne_nil _ _)
      (by intro b hb row hrow l hl
          rcases List.mem_singleton.mp hb with rfl
          rcases List.mem_singleton.mp hrow with rfl
          rcases List.mem_singleton.mp hl with rfl
          rfl)⟩

/-! ## C4: what train returns and how the global step advances -/

/-- C4 (amended): for a nonempty epoch with a nonzero valid-label total,
`train` returns the accumulated loss divided by `steps/gas` (in ℚ, the value
of Python's float division `steps /= gradient_accumulation_steps`), the
accuracy `n_pred_correct / n_pred_total`, and advances the persistent global
step counter by `⌊steps/gas⌋` — which equals the number of optimizer steps
taken whenever `gas` divides the number of processed batches (in particular
for `gas = 1`), but in general the optimizer stepped `⌈steps/gas⌉` times, so
the counter can lag by one (see `train_global_step_cex`). -/
theorem train_return_values (task : TokenClassificationTask) (modelF : Model)
    (pw : Option ℝ) (batches : List Batch) (s : TrainState)
    (hs : s = trainLoop task.args modelF { reduction := "none", pos_weight := pw }
      task.pad_token_id task.ignore_index 0 initTrainState batches)
    (hgas : 0 < task.args.gradient_accumulation_steps)
    (hne : batches ≠ [])
    (hvalid : s.n_pred_total ≠ 0) :
    task.train modelF batches "binary_cross_entropy" pw = Except.ok
      { total_loss := s.total_loss
          / ((((s.steps : ℚ) / (task.args.gradient_accumulation_steps : ℚ)) : ℚ) : ℝ)
        accuracy := (s.n_pred_correct : ℚ) / s.n_pred_total
        global_step := task.global_step
          + s.steps / task.args.gradient_accumulation_steps }
    ∧ (task.args.gradient_accumulation_steps ∣ s.steps →
        s.steps / task.args.gradient_accumulation_steps = s.optStepIdxs.length) := by
  subst hs
  obtain ⟨k, _, hk1, hsteps, hopt, _⟩ :=
    trainLoop_run task.args modelF { reduction := "none", pos_weight := pw }
      task.pad_token_id task.ignore_index batches 0 initTrainState
  have hk := hk1 hne
  have hsteps' : (trainLoop task.args modelF { reduction := "none", pos_weight := pw }
      task.pad_token_id task.ignore_index 0 initTrainState batches).steps = k := by
    simpa [initTrainState] using hsteps
  have hopt' : (trainLoop task.args modelF { reduction := "none", pos_weight := pw }
      task.pad_token_id task.ignore_index 0 initTrainState batches).optStepIdxs
      = (List.range k).filter (fun i => i % task.args.gradient_accumulation_steps = 0) := by
    rw [hopt, List.range_eq_range']
    simp [initTrainState]
  constructor
  · rw [train_unfold]
    have hnz : ¬ (((trainLoop task.args modelF { reduction := "none", pos_weight := pw }
        task.pad_token_id task.ignore_index 0 initTrainState batches).steps : ℚ)
          / (task.args.gradient_accumulation_steps : ℚ) = 0) := by
      rw [hsteps']
      exact div_ne_zero (Nat.cast_ne_zero.mpr (by omega))
        (Nat.cast_ne_zero.mpr (by omega))
    rw [if_neg hnz, if_neg hvalid, floor_nat_div]
  · intro hdvd
    obtain ⟨q, hq⟩ := hdvd
    have hkq : k = task.args.gradient_accumulation_steps * q := by
      rw [← hsteps']; exact hq
    rw [hopt', length_filter_mod_range _ hgas k, hsteps', hkq]
    have h1 : (task.args.gradient_accumulation_steps * q
        + task.args.gradient_accumulation_steps - 1)
        / task.args.gradient_accumulation_steps = q := by
      rw [show task.args.gradient_accumulation_steps * q
          + task.args.gradient_accumulation_steps - 1
          = task.args.gradient_accumulation_steps * q
            + (task.args.gradient_accumulation_steps - 1) by omega,
        Nat.mul_add_div hgas, Nat.div_eq_of_lt (by omega), Nat.add_zero]
    rw [h1, Nat.mul_div_cancel_left _ hgas]

/-- Counterexample to C4 as stated: with accumulation 2 and three batches the
optimizer steps twice (at batch indices 0 and 2) but the global step counter
advances by `int(3 / 2) = 1`, not by the number of optimizer steps. -/
theorem train_global_step_cex :
    (TokenClassificationTask.train ⟨"t", 0, -100, ⟨2, 100⟩, 0⟩ zeroModel [b51, b51, b51]
        "binary_cross_entropy" none).map TrainOutput.global_step = Except.ok 1
    ∧ (trainLoop ⟨2, 100⟩ zeroModel { reduction := "none", pos_weight := none }
        0 (-100) 0 initTrainState [b51, b51, b51]).optStepIdxs.length = 2 := by
  constructor
  · rw [train_unfold, floor_nat_div]
    norm_num [trainLoop, initTrainState, b51, zeroModel, labelMask, Except.map]
  · norm_num [trainLoop, initTrainState, b51, zeroModel]

/-- Witness for C4 (amended) at accumulation 1 with one valid-labelled batch:
the counter advances by `1/1 = 1`. -/
theorem train_return_values_witness :
    (TokenClassificationTask.train ⟨"t", 0, -100, ⟨1, 100⟩, 0⟩ zeroModel [b51]
        "binary_cross_entropy" none).map TrainOutput.global_step = Except.ok 1 := by
  have hvalid : (trainLoop (⟨"t", 0, -100, ⟨1, 100⟩, 0⟩ : TokenClassificationTask).args
      zeroModel { reduction := "none", pos_weight := none }
      (⟨"t", 0, -100, ⟨1, 100⟩, 0⟩ : TokenClassificationTask).pad_token_id
      (⟨"t", 0, -100, ⟨1, 100⟩, 0⟩ : TokenClassificationTask).ignore_index
      0 initTrainState [b51]).n_pred_total ≠ 0 := by
    norm_num [trainLoop, initTrainState, b51, labelMask]
  have h := (train_return_values ⟨"t", 0, -100, ⟨1, 100⟩, 0⟩ zeroModel none [b51] _ rfl
    (by decide) (List.cons_ne_nil _ _) hvalid).1
  rw [h]
  norm_num [trainLoop, initTrainState, b51, Except.map]

/-! ## Helper lemmas for eval (C2) -/

/-- Closed form of the eval batch loop: it adds one loss and appends one
filtered prediction/label vector per batch, in order. -/
theorem evalLoop_spec (modelF : Model) (lossFn : BCEWithLogitsLoss) (pad : ℤ) (ign : ℚ) :
    ∀ (bs : List Batch) (s : EvalState),
      evalLoop modelF lossFn pad ign s bs =
        { total_loss := s.total_loss + (bs.map (fun b =>
              batchLoss lossFn (modelF b.src_seq (attentionMask pad b.src_seq))
                b.label (labelMask ign b.label))).sum
          steps := s.steps + bs.length
          preds := s.preds ++ bs.map (batchPreds modelF pad ign)
          labels := s.labels ++ bs.map (batchLabels modelF pad ign) } := by
  intro bs
  induction bs with
  | nil => intro s; cases s; simp [evalLoop]
  | cons b rest ih =>
    intro s
    simp only [evalLoop]
    rw [ih]
    simp only [List.map_cons, List.sum_cons, List.length_cons, EvalState.mk.injEq,
      batchPreds, batchLabels]
    refine ⟨by ring, by omega, ?_, ?_⟩
    · rw [List.append_assoc, List.singleton_append]
    · rw [List.append_assoc, List.singleton_append]

/-- Unfolding of `TokenClassificationTask.eval` at the supported loss kind. -/
theorem eval_unfold (task : TokenClassificationTask) (modelF : Model) (pw : Option ℝ)
    (batches : List Batch) :
    task.eval modelF batches "binary_cross_entropy" pw =
      (if (evalLoop modelF { reduction := "none", pos_weight := pw } task.pad_token_id
          task.ignore_index { total_loss := 0, steps := 0, preds := [], labels := [] }
          batches).steps = 0 then Except.error "ZeroDivisionError"
      else Except.ok
        { eval_loss := (evalLoop modelF { reduction := "none", pos_weight := pw }
              task.pad_token_id task.ignore_index
              { total_loss := 0, steps := 0, preds := [], labels := [] } batches).total_loss
            / (((evalLoop modelF { reduction := "none", pos_weight := pw }
              task.pad_token_id task.ignore_index
              { total_loss := 0, steps := 0, preds := [], labels := [] } batches).steps : ℕ) : ℝ)
          eval_acc := accuracy_score
            (evalLoop modelF { reduction := "none", pos_weight := pw } task.pad_token_id
              task.ignore_index { total_loss := 0, steps := 0, preds := [], labels := [] }
              batches).labels.flatten
            (evalLoop modelF { reduction := "none", pos_weight := pw } task.pad_token_id
              task.ignore_index { total_loss := 0, steps := 0, preds := [], labels := [] }
              batches).preds.flatten
          eval_precision := (prfsMacroAvg
            (evalLoop modelF { reduction := "none", pos_weight := pw } task.pad_token_id
              task.ignore_index { total_loss := 0, steps := 0, preds := [], labels := [] }
              batches).labels.flatten
            (evalLoop modelF { reduction := "none", pos_weight := pw } task.pad_token_id
              task.ignore_index { total_loss := 0, steps := 0, preds := [], labels := [] }
              batches).preds.flatten).1
          eval_rec := (prfsMacroAvg
            (evalLoop modelF { reduction := "none", pos_weight := pw } task.pad_token_id
              task.ignore_index { total_loss := 0, steps := 0, preds := [], labels := [] }
              batches).labels.flatten
            (evalLoop modelF { reduction := "none", pos_weight := pw } task.pad_token_id
              task.ignore_index { total_loss := 0, steps := 0, preds := [], labels := [] }
              batches).preds.flatten).2.1
          eval_f_score := (prfsMacroAvg
            (evalLoop modelF { reduction := "none", pos_weight := pw } task.pad_token_id
              task.ignore_index { total_loss := 0, steps := 0, preds := [], labels := [] }
              batches).labels.flatten
            (evalLoop modelF { reduction := "none", pos_weight := pw } task.pad_token_id
              task.ignore_index { total_loss := 0, steps := 0, preds := [], labels := [] }
              batches).preds.flatten).2.2 }) := by
  unfold TokenClassificationTask.eval get_loss_fn
  rw [if_pos rfl]
  rfl

/-- What `eval` returns on a nonempty dataloader, in terms of the per-batch
filtered vectors: the mean loss over batches, and accuracy / macro metrics
over the full concatenation. -/
theorem eval_spec (task : TokenClassificationTask) (modelF : Model) (pw : Option ℝ)
    (batches : List Batch) (hne : batches ≠ []) :
    task.eval modelF batches "binary_cross_entropy" pw = Except.ok
      { eval_loss := (batches.map (fun b =>
            batchLoss { reduction := "none", pos_weight := pw }
              (modelF b.src_seq (attentionMask task.pad_token_id b.src_seq))
              b.label (labelMask task.ignore_index b.label))).sum / (batches.length : ℝ)
        eval_acc := accuracy_score
          ((batches.map (batchLabels modelF task.pad_token_id task.ignore_index)).flatten)
          ((batches.map (batchPreds modelF task.pad_token_id task.ignore_index)).flatten)
        eval_precision := (prfsMacroAvg
          ((batches.map (batchLabels modelF task.pad_token_id task.ignore_index)).flatten)
          ((batches.map (batchPreds modelF task.pad_token_id task.ignore_index)).flatten)).1
        eval_rec := (prfsMacroAvg
          ((batches.map (batchLabels modelF task.pad_token_id task.ignore_index)).flatten)
          ((batches.map (batchPreds modelF task.pad_token_id task.ignore_index)).flatten)).2.1
        eval_f_score := (prfsMacroAvg
          ((batches.map (batchLabels modelF task.pad_token_id task.ignore_index)).flatten)
          ((batches.map (batchPreds modelF task.pad_token_id task.ignore_index)).flatten)).2.2 }
      := by
  rw [eval_unfold, evalLoop_spec]
  have hlen : ¬ (0 + batches.length = 0) := by
    cases batches with
    | nil => exact absurd rfl hne
    | cons x xs => simp
  rw [if_neg hlen]
  simp

/-- C2: whenever `eval` returns a score bundle, its accuracy equals
`accuracy_score` over the concatenation of all per-batch filtered
prediction/label vectors, and its precision/recall/F1 are the macro metrics
over that same concatenation — not averages of per-batch values; moreover
there is a pair of batches of different sizes and accuracies on which the
returned accuracy differs from the naive mean of the two per-batch
accuracies. -/
theorem eval_concatenates (task : TokenClassificationTask) (modelF : Model)
    (pw : Option ℝ) (batches : List Batch) (scores : EvalScores)
    (h : task.eval modelF batches "binary_cross_entropy" pw = Except.ok scores) :
    (scores.eval_acc = accuracy_score
        ((batches.map (batchLabels modelF task.pad_token_id task.ignore_index)).flatten)
        ((batches.map (batchPreds modelF task.pad_token_id task.ignore_index)).flatten)
      ∧ scores.eval_precision = (prfsMacroAvg
        ((batches.map (batchLabels modelF task.pad_token_id task.ignore_index)).flatten)
        ((batches.map (batchPreds modelF task.pad_token_id task.ignore_index)).flatten)).1
      ∧ scores.eval_rec = (prfsMacroAvg
        ((batches.map (batchLabels modelF task.pad_token_id task.ignore_index)).flatten)
        ((batches.map (batchPreds modelF task.pad_token_id task.ignore_index)).flatten)).2.1
      ∧ scores.eval_f_score = (prfsMacroAvg
        ((batches.map (batchLabels modelF task.pad_token_id task.ignore_index)).flatten)
        ((batches.map (batchPreds modelF task.pad_token_id task.ignore_index)).flatten)).2.2)
    ∧ ∃ (t : TokenClassificationTask) (m : Model) (b₁ b₂ : Batch) (s : EvalScores),
        t.eval m [b₁, b₂] "binary_cross_entropy" none = Except.ok s
        ∧ b₁.label.flatten.length ≠ b₂.label.flatten.length
        ∧ s.eval_acc ≠ (accuracy_score (batchLabels m t.pad_token_id t.ignore_index b₁)
              (batchPreds m t.pad_token_id t.ignore_index b₁)
            + accuracy_score (batchLabels m t.pad_token_id t.ignore_index b₂)
              (batchPreds m t.pad_token_id t.ignore_index b₂)) / 2 := by
  constructor
  · have hne : batches ≠ [] := by
      rintro rfl
      rw [eval_unfold] at h
      simp [evalLoop] at h
    rw [eval_spec task modelF pw batches hne] at h
    obtain rfl := (Except.ok.inj h).symm
    exact ⟨rfl, rfl, rfl, rfl⟩
  · have hp1 : batchPreds unitModel 99 (-100) { src_seq := [[1]], label := [[1]] } = [1] := by
      norm_num [batchPreds, compute_correct, unitModel, attentionMask, labelMask,
        predLabel_one]
    have hl1 : batchLabels unitModel 99 (-100) { src_seq := [[1]], label := [[1]] } = [1] := by
      norm_num [batchLabels, compute_correct, unitModel, attentionMask, labelMask,
        predLabel_one]
    have hp2 : batchPreds unitModel 99 (-100)
        { src_seq := [[1, 1, 1]], label := [[0, 0, 0]] } = [1, 1, 1] := by
      norm_num [batchPreds, compute_correct, unitModel, attentionMask, labelMask,
        predLabel_one]
    have hl2 : batchLabels unitModel 99 (-100)
        { src_seq := [[1, 1, 1]], label := [[0, 0, 0]] } = [0, 0, 0] := by
      norm_num [batchLabels, compute_correct, unitModel, attentionMask, labelMask,
        predLabel_one]
    refine ⟨⟨"e", 99, -100, ⟨1, 1⟩, 0⟩, unitModel,
      { src_seq := [[1]], label := [[1]] },
      { src_seq := [[1, 1, 1]], label := [[0, 0, 0]] }, _,
      eval_spec _ unitModel none _ (by simp), by simp, ?_⟩
    simp only [List.map_cons, List.map_nil, List.flatten_cons, List.flatten_nil,
      List.append_nil, hp1, hl1, hp2, hl2]
    norm_num [accuracy_score, List.countP_cons, List.countP_nil]

/-- Witness for C2: a single-batch evaluation whose returned accuracy is the
concatenated-vector accuracy. -/
theorem eval_concatenates_witness :
    ∃ scores, TokenClassificationTask.eval ⟨"e", 99, -100, ⟨1, 1⟩, 0⟩ unitModel
        [{ src_seq := [[1]], label := [[1]] }] "binary_cross_entropy" none
        = Except.ok scores
      ∧ scores.eval_acc = accuracy_score
          (([({ src_seq := [[1]], label := [[1]] } : Batch)].map
            (batchLabels unitModel 99 (-100))).flatten)
          (([({ src_seq := [[1]], label := [[1]] } : Batch)].map
            (batchPreds unitModel 99 (-100))).flatten) := by
  have hspec := eval_spec ⟨"e", 99, -100, ⟨1, 1⟩, 0⟩ unitModel none
    [{ src_seq := [[1]], label := [[1]] }] (by simp)
  exact ⟨_, hspec,
    (eval_concatenates ⟨"e", 99, -100, ⟨1, 1⟩, 0⟩ unitModel none
      [{ src_seq := [[1]], label := [[1]] }] _ hspec).1.1⟩

end WordSubstitution
